import Mathlib

/-!
Verification of the `closer` Go package: a registry of shutdown callbacks
supporting bulk concurrent close (`Close`), one-at-a-time FIFO close
(`CloseOne`), registration (`Add`) and a size query (`Size`).

Shallow embedding notes.

* A Go callback `Func = func(ctx) error` is invoked at most once by the
  registry, which passes the caller's context through without inspecting
  it.  We therefore model a callback by the value it returns when invoked:
  `none` for a nil error (success) and `some msg` for an error whose
  `Error()` text is `msg`.
* Go errors are modelled as `Option String` (`none` = nil error).
* `fmt.Errorf("%s: %v", op, msg)` is modelled by `errf op msg`.
* Indexing `c.funcs[prev]` and slicing `c.funcs[c.i:]` panic in Go when out
  of range; the operations that perform them return `Option`, with `none`
  standing for the panic, so that in-bounds reasoning is explicit.
* `Close` runs the snapshot's callbacks in goroutines and joins before
  collecting, and each per-callback channel holds that callback's error
  only; the collected sequence of error messages is therefore deterministic
  and equal to the sequential collection modelled here.  The lock is
  modelled separately (see the access-trace model at the end), since in a
  sequential embedding every operation is atomic.
-/

/-- Result of invoking a registered callback: `none` is a nil error,
`some msg` an error with message `msg`.  Models the Go type
`type Func func(ctx context.Context) error` by the value one invocation
returns. -/
abbrev Func : Type := Option String

/-- The registry state: the mutex is modelled separately, the remaining
fields are those of the Go struct `Closer`. -/
structure Closer where
  /-- `funcs []Func` — list of functions to close. -/
  funcs : List Func
  /-- `size int` — total number of added functions. -/
  size : Nat
  /-- `i int` — index of the current function to close. -/
  i : Nat
deriving DecidableEq

/-- A zero-value `Closer` (`var cl closer.Closer`). -/
def Closer.empty : Closer := ⟨[], 0, 0⟩

/-- `const ErrAllServicesClosed = "all services closed"`. -/
def ErrAllServicesClosed : String := "all services closed"

/-- `fmt.Errorf("%s: %v", op, msg)`. -/
def errf (op msg : String) : String := op ++ ": " ++ msg

/-- `Add` appends the function and increments `size`. -/
def Closer.Add (c : Closer) (f : Func) : Closer :=
  { c with funcs := c.funcs ++ [f], size := c.size + 1 }

/-- `execF` (variant `src/closer.go`): runs `f` in a goroutine and returns a
channel of capacity one that receives `f`'s error iff it is non-nil.  The
channel contents are exactly the invocation's result. -/
def execF (f : Func) : Option String := f

/-- The channel-collection loop of `Close` (variant `src/closer.go`):
`for _, el := range fErrorChanels { for err := range el { ... append ... } }`. -/
def collectChans (chans : List (Option String)) : List String :=
  chans.foldl (fun acc el => match el with
    | some err => acc ++ [err]
    | none => acc) []

/-- `Close` from `src/closer.go`: one goroutine and one error channel per
remaining callback.  Returns `none` on a Go panic (slice out of range),
otherwise `some (err, newState, invokedIndices)` where `invokedIndices`
lists the indices of the callbacks invoked, in registration order. -/
def Closer.Close (c : Closer) : Option (Option String × Closer × List Nat) :=
  if c.i ≥ c.size then
    some (some (errf "closer.Close" ErrAllServicesClosed), c, [])
  else if c.i ≤ c.funcs.length then
    let snapshot := c.funcs.drop c.i
    let fErrorChanels := snapshot.map execF
    let fErrors := collectChans fErrorChanels
    let c₂ : Closer := { c with i := c.size }
    some ((if fErrors.length > 0 then
        some (errf "closer.Close" (String.intercalate "; " fErrors))
      else none), c₂, List.range' c.i snapshot.length)
  else
    none

/-- `CloseOne`: reserves the current index under the lock, then invokes
`c.funcs[prev]` outside the lock and returns its error unchanged.  `none`
models the Go index-out-of-range panic. -/
def Closer.CloseOne (c : Closer) : Option (Option String × Closer × List Nat) :=
  if c.i ≥ c.size then
    some (some (errf "closer.CloseOne" ErrAllServicesClosed), c, [])
  else
    match c.funcs[c.i]? with
    | some f => some (f, { c with i := c.i + 1 }, [c.i])
    | none => none

/-- `Size` returns `c.size`. -/
def Closer.Size (c : Closer) : Nat := c.size

/-- `reset` from `src/closer/closer.go`: sets the index back to `0`. -/
def Closer.reset (c : Closer) : Closer := { c with i := 0 }

/-- `execF` (variant `src/closer/closer.go`): runs `f` synchronously and
sends its error to the shared buffered channel iff it is non-nil.  The
channel is modelled as the FIFO list of messages it holds. -/
def execF2 (f : Func) (errCh : List String) : List String :=
  match f with
  | some err => errCh ++ [err]
  | none => errCh

/-- The collection loop of `Close` (variant `src/closer/closer.go`):
`for range length { select { case err := <-fErrChan: ... default: break } }`
— `break` leaves only the `select`, so the loop always runs `length`
times, draining at most `length` messages in FIFO order. -/
def collect2 : Nat → List String → List String → List String
  | 0, _, acc => acc
  | n + 1, err :: rest, acc => collect2 n rest (acc ++ [err])
  | n + 1, [], acc => collect2 n [] acc

/-- `Close` from `src/closer/closer.go`: every `execF` call is synchronous
(no `go` keyword), all callbacks share one buffered channel of capacity
`length = c.size - c.i`, and the collection loop performs `length`
non-blocking receives. -/
def Closer.Close2 (c : Closer) : Option (Option String × Closer × List Nat) :=
  if c.i ≥ c.size then
    some (some (errf "closer.Close" ErrAllServicesClosed), c, [])
  else if c.i ≤ c.funcs.length then
    let length := c.size - c.i
    let snapshot := c.funcs.drop c.i
    let fErrChan := snapshot.foldl (fun ch f => execF2 f ch) []
    let fErrors := collect2 length fErrChan []
    let c₂ : Closer := { c with i := c.size }
    some ((if fErrors.length > 0 then
        some (errf "closer.Close" (String.intercalate "; " fErrors))
      else none), c₂, List.range' c.i snapshot.length)
  else
    none

/-- A registry built by `N` `Add` calls on a zero-value `Closer`. -/
def mkCloser (fs : List Func) : Closer := fs.foldl Closer.Add Closer.empty

/-- Iterated `CloseOne`: returns the final state, the list of errors the
successive calls returned, and the concatenated invocation logs; `none` if
any call panics. -/
def runCloseOne : Closer → Nat → Option (Closer × List (Option String) × List Nat)
  | c, 0 => some (c, [], [])
  | c, n + 1 =>
      match c.CloseOne with
      | none => none
      | some (e, c₂, inv) =>
          match runCloseOne c₂ n with
          | none => none
          | some (cf, es, invs) => some (cf, e :: es, inv ++ invs)

/-- The structural invariant of a reachable registry:
`0 ≤ cursor ≤ total` and `total` equals the length of the callback list. -/
def WF (c : Closer) : Prop := c.i ≤ c.size ∧ c.size = c.funcs.length

instance (c : Closer) : Decidable (WF c) := by
  unfold WF; infer_instance

/-! ### Helper lemmas about the embedding -/

theorem foldl_Add (fs : List Func) (c : Closer) :
    fs.foldl Closer.Add c = ⟨c.funcs ++ fs, c.size + fs.length, c.i⟩ := by
  induction fs generalizing c with
  | nil => simp
  | cons f tl ih =>
      simp only [List.foldl_cons, ih, Closer.Add, List.append_assoc,
        List.cons_append, List.nil_append, List.length_cons]
      exact congrArg (Closer.mk _ · _) (by omega)

theorem mkCloser_eq (fs : List Func) : mkCloser fs = ⟨fs, fs.length, 0⟩ := by
  simp [mkCloser, foldl_Add, Closer.empty]

theorem collectChans_eq (chans : List (Option String)) :
    collectChans chans = chans.filterMap id := by
  suffices h : ∀ (l : List (Option String)) (acc : List String),
      l.foldl (fun acc el => match el with
        | some err => acc ++ [err]
        | none => acc) acc = acc ++ l.filterMap id by
    simpa [collectChans] using h chans []
  intro l
  induction l with
  | nil => simp
  | cons hd tl ih =>
      intro acc
      cases hd with
      | none => simpa using ih acc
      | some e => simp [ih, List.append_assoc]

theorem map_execF (l : List Func) : l.map execF = l := List.map_id l

theorem foldl_execF2 (l : List Func) (acc : List String) :
    l.foldl (fun ch f => execF2 f ch) acc = acc ++ l.filterMap id := by
  induction l generalizing acc with
  | nil => simp
  | cons f tl ih =>
      rw [List.foldl_cons, ih]
      cases f with
      | none => simp [execF2]
      | some e => simp [execF2, List.append_assoc]

theorem collect2_eq (n : Nat) (ch acc : List String) (h : ch.length ≤ n) :
    collect2 n ch acc = acc ++ ch := by
  induction n generalizing ch acc with
  | zero =>
      cases ch with
      | nil => simp [collect2]
      | cons e r => simp at h
  | succ n ih =>
      cases ch with
      | nil =>
          have : collect2 n ([] : List String) acc = acc ++ [] := ih [] acc (by simp)
          simpa [collect2] using this
      | cons e r =>
          have hr : r.length ≤ n := by simp at h; omega
          simp [collect2, ih r (acc ++ [e]) hr, List.append_assoc]

/-- Value of `Close` on a well-sized, non-exhausted registry. -/
theorem Close_spec (c : Closer) (hsz : c.size = c.funcs.length) (h : c.i < c.size) :
    c.Close = some
      ((if (((c.funcs.drop c.i).filterMap id).length > 0 : Prop) then
          some (errf "closer.Close"
            (String.intercalate "; " ((c.funcs.drop c.i).filterMap id)))
        else none),
       { c with i := c.size }, List.range' c.i ((c.funcs.drop c.i).length)) := by
  unfold Closer.Close
  rw [if_neg (by omega), if_pos (by omega)]
  simp [collectChans_eq, map_execF]

/-- Value of `Close2` on a well-sized, non-exhausted registry: the same as
`Close`, because the shared channel holds at most `c.size - c.i` messages. -/
theorem Close2_spec (c : Closer) (hsz : c.size = c.funcs.length) (h : c.i < c.size) :
    c.Close2 = some
      ((if (((c.funcs.drop c.i).filterMap id).length > 0 : Prop) then
          some (errf "closer.Close"
            (String.intercalate "; " ((c.funcs.drop c.i).filterMap id)))
        else none),
       { c with i := c.size }, List.range' c.i ((c.funcs.drop c.i).length)) := by
  unfold Closer.Close2
  rw [if_neg (by omega), if_pos (by omega)]
  have hlen : ((c.funcs.drop c.i).filterMap id).length ≤ c.size - c.i := by
    calc ((c.funcs.drop c.i).filterMap id).length
        ≤ (c.funcs.drop c.i).length := List.length_filterMap_le _ _
      _ = c.funcs.length - c.i := List.length_drop _ _
      _ = c.size - c.i := by omega
  simp [foldl_execF2, collect2_eq _ _ _ hlen]

/-- Value of `CloseOne` on a well-sized, non-exhausted registry. -/
theorem CloseOne_spec (fs : List Func) (k : Nat) (hk : k < fs.length) :
    Closer.CloseOne ⟨fs, fs.length, k⟩ =
      some (fs[k], ⟨fs, fs.length, k + 1⟩, [k]) := by
  unfold Closer.CloseOne
  rw [if_neg (by simp; omega)]
  simp [List.getElem?_eq_getElem hk]

theorem runCloseOne_spec (n k : Nat) (fs : List Func) (h : k + n ≤ fs.length) :
    runCloseOne ⟨fs, fs.length, k⟩ n =
      some (⟨fs, fs.length, k + n⟩, (fs.drop k).take n, List.range' k n) := by
  induction n generalizing k with
  | zero => simp [runCloseOne]
  | succ n ih =>
      have hk : k < fs.length := by omega
      have h2 : k + 1 + n ≤ fs.length := by omega
      simp only [runCloseOne, CloseOne_spec fs k hk, ih (k + 1) h2]
      simp only [Option.some.injEq, Prod.mk.injEq, Closer.mk.injEq]
      refine ⟨⟨trivial, trivial, by omega⟩, ?_, ?_⟩
      · rw [List.drop_eq_getElem_cons hk]
        rfl
      · rw [List.range'_succ]
        rfl

/-! ### Substring containment, as used by `strings.Contains` /
`require.ErrorContains` in the repository's tests -/

/-- `chPre pat l` holds iff `pat` starts `l` (character lists). -/
def chPre : List Char → List Char → Bool
  | [], _ => true
  | _ :: _, [] => false
  | p :: ps, c :: cs => p == c && chPre ps cs

/-- `chSub pat l` holds iff `pat` occurs contiguously inside `l`. -/
def chSub (pat : List Char) : List Char → Bool
  | [] => chPre pat []
  | c :: cs => chPre pat (c :: cs) || chSub pat cs

/-- `strSub pat hay` — `pat` is a substring of `hay`, as Go's
`strings.Contains(hay, pat)`. -/
def strSub (pat hay : String) : Bool := chSub pat.toList hay.toList

/-! ### Lock-discipline model for the shared mutable state

Each Go operation is transliterated into its sequence of lock actions and
field accesses, in program order; `unlockedAccesses` lists the fields that
are read or written while the mutex is not held. -/

/-- The shared mutable fields of the Go `Closer` struct. -/
inductive GoField
  | funcs
  | size
  | i
deriving DecidableEq

/-- One step of a registry operation: mutex acquire/release or a field
access. -/
inductive GoAction
  | lock
  | unlock
  | read (f : GoField)
  | write (f : GoField)
deriving DecidableEq

/-- `Add`: `c.funcs = append(c.funcs, f)` then `c.size++`, all between
`c.mu.Lock()` and the deferred `c.mu.Unlock()`. -/
def addTrace : List GoAction :=
  [.lock,
   .read .funcs, .write .funcs,
   .read .size, .write .size,
   .unlock]

/-- `Close` (`src/closer.go`): guard `c.i >= c.size`, the two `make` calls
with capacity `c.size`, the range over `c.funcs[c.i:]`, and `c.i = c.size`,
all between `c.mu.Lock()` and the deferred `c.mu.Unlock()`. -/
def closeTrace : List GoAction :=
  [.lock,
   .read .i, .read .size,
   .read .size, .read .size,
   .read .funcs, .read .i,
   .read .size, .write .i,
   .unlock]

/-- `CloseOne`: `prev := c.i`, the guard and `c.i++` inside the closure
whose deferred call releases the mutex, then `c.funcs[prev](ctx)` is
evaluated after the release. -/
def closeOneTrace : List GoAction :=
  [.lock,
   .read .i,
   .read .i, .read .size,
   .read .i, .write .i,
   .unlock,
   .read .funcs]

/-- `Size`: `return c.size` with no locking at all. -/
def sizeTrace : List GoAction :=
  [.read .size]

/-- `reset` (`src/closer/closer.go`): `c.i = 0` between `c.mu.Lock()` and
`c.mu.Unlock()`. -/
def resetTrace : List GoAction :=
  [.lock, .write .i, .unlock]

/-- The fields accessed while the lock depth is zero, in order. -/
def unlockedAccesses : Nat → List GoAction → List GoField
  | _, [] => []
  | d, .lock :: rest => unlockedAccesses (d + 1) rest
  | d, .unlock :: rest => unlockedAccesses (d - 1) rest
  | 0, .read f :: rest => f :: unlockedAccesses 0 rest
  | d + 1, .read _ :: rest => unlockedAccesses (d + 1) rest
  | 0, .write f :: rest => f :: unlockedAccesses 0 rest
  | d + 1, .write _ :: rest => unlockedAccesses (d + 1) rest

/-! ### Claim theorems -/

/-- C1: on a registry holding `N` registered callbacks, `N` `CloseOne`
calls invoke the callbacks in registration (FIFO) order, one invocation
per call (the invocation log is `[0, 1, ..., N-1]`), each call returning
its callback's own error unchanged (the list of returned errors is the
list of callbacks' results itself, with no wrapping), and the `(N+1)`-th
call returns the Exhausted error. -/
theorem c1_closeOne_fifo (fs : List Func) :
    ∃ cf : Closer,
      runCloseOne (mkCloser fs) fs.length =
        some (cf, fs, List.range fs.length) ∧
      cf.CloseOne =
        some (some (errf "closer.CloseOne" ErrAllServicesClosed), cf, []) := by
  refine ⟨⟨fs, fs.length, fs.length⟩, ?_, ?_⟩
  · rw [mkCloser_eq, runCloseOne_spec fs.length 0 fs (by omega)]
    simp [List.range_eq_range', List.take_length]
  · unfold Closer.CloseOne
    rw [if_pos (le_refl fs.length)]

/-- C2: `Close` on a registry with unclosed callbacks returns a non-nil
error iff at least one remaining callback fails, and then the error text
is the operation tag `closer.Close: ` followed by the failing callbacks'
messages joined by `"; "`, each appearing exactly once, in callback
iteration order (the failure list is `filterMap id` of the remaining
suffix, which keeps order and multiplicity). -/
theorem c2_close_aggregate (c : Closer) (hsz : c.size = c.funcs.length)
    (h : c.i < c.size) :
    ∃ st, c.Close = some st ∧
      (st.1 ≠ none ↔ 0 < ((c.funcs.drop c.i).filterMap id).length) ∧
      ((c.funcs.drop c.i).filterMap id ≠ [] →
        st.1 = some (errf "closer.Close"
          (String.intercalate "; " ((c.funcs.drop c.i).filterMap id)))) := by
  refine ⟨_, Close_spec c hsz h, ?_, ?_⟩
  · constructor
    · intro hne
      by_contra hlen
      rw [if_neg hlen] at hne
      exact hne rfl
    · intro hpos
      rw [if_pos hpos]
      simp
  · intro hne
    rw [if_pos (by cases hfe : (c.funcs.drop c.i).filterMap id with
      | nil => exact absurd hfe hne
      | cons a l => simp [hfe])]

theorem c2_witness :
    ∃ st, (Closer.mk [none, some "boom", none] 3 0).Close = some st ∧
      (st.1 ≠ none ↔
        0 < (((Closer.mk [none, some "boom", none] 3 0).funcs.drop
          (Closer.mk [none, some "boom", none] 3 0).i).filterMap id).length) ∧
      (((Closer.mk [none, some "boom", none] 3 0).funcs.drop
          (Closer.mk [none, some "boom", none] 3 0).i).filterMap id ≠ [] →
        st.1 = some (errf "closer.Close"
          (String.intercalate "; "
            (((Closer.mk [none, some "boom", none] 3 0).funcs.drop
              (Closer.mk [none, some "boom", none] 3 0).i).filterMap id)))) :=
  c2_close_aggregate (Closer.mk [none, some "boom", none] 3 0) rfl (by decide)

/-- C3: `Close` on a registry with at least one unclosed callback always
advances the cursor to the total count (whatever the returned error), so
`Size` is unchanged and every subsequent `Close` or `CloseOne` returns the
Exhausted error; the advance is never rolled back on failure. -/
theorem c3_close_exhausts (c : Closer) (hsz : c.size = c.funcs.length)
    (h : c.i < c.size) :
    ∃ e l, c.Close = some (e, { c with i := c.size }, l) ∧
      Closer.Size { c with i := c.size } = c.Size ∧
      Closer.Close { c with i := c.size } =
        some (some (errf "closer.Close" ErrAllServicesClosed),
          { c with i := c.size }, []) ∧
      Closer.CloseOne { c with i := c.size } =
        some (some (errf "closer.CloseOne" ErrAllServicesClosed),
          { c with i := c.size }, []) := by
  refine ⟨_, _, Close_spec c hsz h, rfl, ?_, ?_⟩
  · unfold Closer.Close
    rw [if_pos (le_refl c.size)]
  · unfold Closer.CloseOne
    rw [if_pos (le_refl c.size)]

theorem c3_witness :
    ∃ e l, (Closer.mk [some "x", none] 2 0).Close =
        some (e, { Closer.mk [some "x", none] 2 0 with i := 2 }, l) ∧
      Closer.Size { Closer.mk [some "x", none] 2 0 with i := 2 } =
        (Closer.mk [some "x", none] 2 0).Size ∧
      Closer.Close { Closer.mk [some "x", none] 2 0 with i := 2 } =
        some (some (errf "closer.Close" ErrAllServicesClosed),
          { Closer.mk [some "x", none] 2 0 with i := 2 }, []) ∧
      Closer.CloseOne { Closer.mk [some "x", none] 2 0 with i := 2 } =
        some (some (errf "closer.CloseOne" ErrAllServicesClosed),
          { Closer.mk [some "x", none] 2 0 with i := 2 }, []) :=
  c3_close_exhausts (Closer.mk [some "x", none] 2 0) rfl (by decide)

/-- C4: on any registry whose cursor has reached the total count — the
zero-value registry included — `Close` returns the Exhausted error,
invokes no callback (empty invocation log), and leaves the state
unchanged. -/
theorem c4_close_exhausted_noop (c : Closer) (h : c.size ≤ c.i) :
    c.Close = some (some (errf "closer.Close" ErrAllServicesClosed), c, []) := by
  unfold Closer.Close
  rw [if_pos h]

theorem c4_witness :
    Closer.empty.Close =
      some (some (errf "closer.Close" ErrAllServicesClosed), Closer.empty, []) :=
  c4_close_exhausted_noop Closer.empty (by decide)

/-- C5 counterexample: the zero-value registry's `Close` fails because no
unclosed callback remains, yet its error text
`"closer.Close: all services closed"` does not contain the spec's sentinel
`"all callbacks already closed"` as a substring. -/
theorem c5_counterexample :
    Closer.empty.Close =
      some (some "closer.Close: all services closed", Closer.empty, []) ∧
    strSub "all callbacks already closed"
      "closer.Close: all services closed" = false := by
  exact ⟨by decide, by decide⟩

/-- C5 (amended): whenever `Close` or `CloseOne` fails because no unclosed
callback remains, the returned error's text contains the exact sentinel
message `"all services closed"` (the constant `ErrAllServicesClosed`) as a
substring. -/
theorem c5_exhausted_sentinel (c : Closer) (h : c.size ≤ c.i) :
    (∃ msg, c.Close = some (some msg, c, []) ∧
      strSub ErrAllServicesClosed msg = true) ∧
    (∃ msg, c.CloseOne = some (some msg, c, []) ∧
      strSub ErrAllServicesClosed msg = true) := by
  constructor
  · refine ⟨errf "closer.Close" ErrAllServicesClosed, ?_, by decide⟩
    unfold Closer.Close
    rw [if_pos h]
  · refine ⟨errf "closer.CloseOne" ErrAllServicesClosed, ?_, by decide⟩
    unfold Closer.CloseOne
    rw [if_pos h]

theorem c5_witness :
    (∃ msg, Closer.empty.Close = some (some msg, Closer.empty, []) ∧
      strSub ErrAllServicesClosed msg = true) ∧
    (∃ msg, Closer.empty.CloseOne = some (some msg, Closer.empty, []) ∧
      strSub ErrAllServicesClosed msg = true) :=
  c5_exhausted_sentinel Closer.empty (by decide)

/-- C6 counterexample: from the exhausted state `⟨[none], 1, 1⟩`
(`cursor == total`), `reset` decreases the cursor back to `0`, and `Add`
grows the total, so both operations return the registry to a state with
`cursor < total` — the Open/Exhausted transition is not one-way. -/
theorem c6_counterexample :
    (Closer.mk [none] 1 1).i = (Closer.mk [none] 1 1).size ∧
    (Closer.mk [none] 1 1).reset.i < (Closer.mk [none] 1 1).i ∧
    (Closer.mk [none] 1 1).reset.i < (Closer.mk [none] 1 1).reset.size ∧
    ((Closer.mk [none] 1 1).Add none).i < ((Closer.mk [none] 1 1).Add none).size := by
  decide

/-- C6 (amended): `Add`, `Close` and `CloseOne` never decrease the cursor,
and `Close`/`CloseOne` leave an exhausted registry unchanged (so they never
take it back to Open); however `reset` sets the cursor to `0` and `Add`
grows the total, and either can return an exhausted registry to a state
with `cursor < total`. -/
theorem c6_cursor_monotone (c : Closer) :
    (∀ f, c.i ≤ (c.Add f).i) ∧
    (∀ r, c.Close = some r → c.i ≤ r.2.1.i ∧ (c.size ≤ c.i → r.2.1 = c)) ∧
    (∀ r, c.CloseOne = some r → c.i ≤ r.2.1.i ∧ (c.size ≤ c.i → r.2.1 = c)) ∧
    c.reset.i = 0 := by
  refine ⟨fun f => le_refl c.i, ?_, ?_, rfl⟩
  · intro r hr
    unfold Closer.Close at hr
    split at hr
    next hg =>
      cases hr
      exact ⟨le_refl c.i, fun _ => rfl⟩
    next hg =>
      split at hr
      · cases hr
        exact ⟨by simp; omega, fun hc => absurd hc hg⟩
      · cases hr
  · intro r hr
    unfold Closer.CloseOne at hr
    split at hr
    next hg =>
      cases hr
      exact ⟨le_refl c.i, fun _ => rfl⟩
    next hg =>
      split at hr
      · cases hr
        exact ⟨by simp, fun hc => absurd hc hg⟩
      · cases hr

theorem c6_witness :
    (Closer.mk [none] 1 1).i ≤
      (some (errf "closer.Close" ErrAllServicesClosed),
        Closer.mk [none] 1 1, ([] : List Nat)).2.1.i ∧
    (Closer.mk [none] 1 1).reset.i = 0 :=
  ⟨((c6_cursor_monotone (Closer.mk [none] 1 1)).2.1 _ (by decide)).1,
   (c6_cursor_monotone (Closer.mk [none] 1 1)).2.2.2⟩

/-- C7: `Size` equals `N` after `N` `Add` calls, each `Add` grows `Size`
by exactly one and appends the callback, and neither `Close` nor
`CloseOne` changes `Size` or the stored callback sequence. -/
theorem c7_size_frame (c : Closer) (f : Func) (fs : List Func) :
    (mkCloser fs).Size = fs.length ∧
    (c.Add f).Size = c.Size + 1 ∧
    (c.Add f).funcs = c.funcs ++ [f] ∧
    (∀ r, c.Close = some r → r.2.1.Size = c.Size ∧ r.2.1.funcs = c.funcs) ∧
    (∀ r, c.CloseOne = some r → r.2.1.Size = c.Size ∧ r.2.1.funcs = c.funcs) := by
  refine ⟨by rw [mkCloser_eq]; rfl, rfl, rfl, ?_, ?_⟩
  · intro r hr
    unfold Closer.Close at hr
    split at hr
    · cases hr; exact ⟨rfl, rfl⟩
    · split at hr
      · cases hr; exact ⟨rfl, rfl⟩
      · cases hr
  · intro r hr
    unfold Closer.CloseOne at hr
    split at hr
    · cases hr; exact ⟨rfl, rfl⟩
    · split at hr
      · cases hr; exact ⟨rfl, rfl⟩
      · cases hr

theorem c7_witness :
    (mkCloser [none, none]).Size = 2 ∧
    ((Closer.mk [none] 1 0).Add (some "x")).Size = (Closer.mk [none] 1 0).Size + 1 ∧
    ((none : Option String), Closer.mk [none] 1 1, [0]).2.1.Size =
      (Closer.mk [none] 1 0).Size :=
  ⟨(c7_size_frame (Closer.mk [none] 1 0) (some "x") [none, none]).1,
   (c7_size_frame (Closer.mk [none] 1 0) (some "x") [none, none]).2.1,
   ((c7_size_frame (Closer.mk [none] 1 0) (some "x") [none, none]).2.2.2.2
     ((none : Option String), Closer.mk [none] 1 1, [0]) (by decide)).1⟩

/-- C8: every operation preserves the structural invariant
`cursor ≤ total = length funcs` (`WF`), and under it the guarded index
access of `CloseOne` and the suffix slice of `Close` are in bounds — the
out-of-range (`none`, Go panic) branch is unreachable. -/
theorem c8_invariant_safety (c : Closer) (f : Func) (h : WF c) :
    WF Closer.empty ∧
    WF (c.Add f) ∧
    (∃ r, c.Close = some r ∧ WF r.2.1) ∧
    (∃ r, c.CloseOne = some r ∧ WF r.2.1) := by
  obtain ⟨hle, hsz⟩ := h
  refine ⟨by decide, ?_, ?_, ?_⟩
  · exact ⟨by simp [Closer.Add]; omega, by simp [Closer.Add]; omega⟩
  · by_cases hg : c.size ≤ c.i
    · refine ⟨_, c4_close_exhausted_noop c hg, ?_⟩
      exact ⟨hle, hsz⟩
    · push_neg at hg
      refine ⟨_, Close_spec c hsz hg, ?_⟩
      exact ⟨le_refl c.size, hsz⟩
  · by_cases hg : c.size ≤ c.i
    · refine ⟨(some (errf "closer.CloseOne" ErrAllServicesClosed), c, []), ?_, ?_⟩
      · unfold Closer.CloseOne
        rw [if_pos hg]
      · exact ⟨hle, hsz⟩
    · push_neg at hg
      have hk : c.i < c.funcs.length := by omega
      refine ⟨(c.funcs[c.i], { c with i := c.i + 1 }, [c.i]), ?_, by simp; omega, hsz⟩
      unfold Closer.CloseOne
      rw [if_neg (by omega)]
      simp [List.getElem?_eq_getElem hk]

theorem c8_witness :
    WF Closer.empty ∧
    WF ((Closer.mk [none] 1 0).Add (some "x")) ∧
    (∃ r, (Closer.mk [none] 1 0).Close = some r ∧ WF r.2.1) ∧
    (∃ r, (Closer.mk [none] 1 0).CloseOne = some r ∧ WF r.2.1) :=
  c8_invariant_safety (Closer.mk [none] 1 0) (some "x") (by decide)

/-- C9: the two `Close` implementations — one goroutine per callback with
one error channel each (`Close`, `src/closer.go`) and synchronous `execF`
with a single shared buffered channel (`Close2`, `src/closer/closer.go`)
— return the same error, invoke the same callbacks, and leave the
registry in the same final state, on every well-formed registry. -/
theorem c9_close_variants_equiv (c : Closer) (h : WF c) :
    c.Close = c.Close2 := by
  obtain ⟨hle, hsz⟩ := h
  by_cases hg : c.size ≤ c.i
  · unfold Closer.Close Closer.Close2
    rw [if_pos hg, if_pos hg]
  · push_neg at hg
    rw [Close_spec c hsz hg, Close2_spec c hsz hg]

theorem c9_witness :
    (Closer.mk [some "e1", none, some "e2"] 3 0).Close =
      (Closer.mk [some "e1", none, some "e2"] 3 0).Close2 :=
  c9_close_variants_equiv (Closer.mk [some "e1", none, some "e2"] 3 0) (by decide)

/-- C10 counterexample: `Size` reads the `size` field without holding the
lock, and `CloseOne` reads the `funcs` field after releasing it — so the
claim that every read and write of the shared `(funcs, size, i)` state,
`Size`'s included, happens under the lock is false at these two
operations. -/
theorem c10_counterexample :
    unlockedAccesses 0 sizeTrace = [GoField.size] ∧
    unlockedAccesses 0 closeOneTrace = [GoField.funcs] := by
  decide

/-- C10 (amended): `Add`, `Close` and `reset` perform every access to the
shared `(funcs, size, i)` state while holding the lock; `CloseOne` does so
for all accesses except the read of the callback sequence at the reserved
slot, which happens after release; `Size` reads the total count without
taking the lock at all. -/
theorem c10_lock_discipline :
    unlockedAccesses 0 addTrace = [] ∧
    unlockedAccesses 0 closeTrace = [] ∧
    unlockedAccesses 0 resetTrace = [] ∧
    unlockedAccesses 0 closeOneTrace = [GoField.funcs] ∧
    unlockedAccesses 0 sizeTrace = [GoField.size] := by
  decide
